import Mathlib

/-!
Shallow embedding of the repository's transcription fallback engine
(`backend/agents/voice_agent.py`, method `VoiceAgent.speech_to_text`) and of
the LLM-response JSON extraction utility
(`backend/utils/llm_response_handling.py`, function `clean_llm_json`),
together with theorems settling the frozen claims about them.

Modelling conventions for `speech_to_text`:
  * The external Google Cloud speech client (`self.stt_client.recognize`) is an
    external collaborator.  It is modelled as a function (a "recognizer stub")
    from the audio byte content, the zero-based index of the call made during
    the current invocation, and the `RecognitionConfig` value passed, to an
    outcome: either a raised exception (`RecognizerOutcome.raises`) or a
    response (`RecognizerOutcome.ok results`).  A response is the list
    `response.results`, each result being the list of the transcript strings
    of its `alternatives`.  Indexing by call number lets a single pure
    function describe any sequence of behaviours of a (possibly stateful)
    stub within one invocation.
  * `result.alternatives[0].transcript` on a result with an empty
    `alternatives` list raises an `IndexError` in Python; the join is
    therefore modelled as an `Option`, `none` meaning the join expression
    raised.
  * The file extension argument is the value of
    `os.path.splitext(audio_file_path)[1]`; the `.lower()` applied to it in
    the source is part of the model.
-/

inductive AudioEncoding where
  | LINEAR16
  | OGG_OPUS
  | WEBM_OPUS
  | MP3
deriving DecidableEq, Repr

/-- The fields of `speech.RecognitionConfig` that `speech_to_text` ever sets.
`sample_rate_hertz` and `audio_channel_count` are `Option` because the
non-webm primary config omits them. -/
structure RecognitionConfig where
  encoding : AudioEncoding
  sample_rate_hertz : Option Nat
  language_code : String
  enable_automatic_punctuation : Bool
  use_enhanced : Bool
  model : String
  audio_channel_count : Option Nat
deriving DecidableEq, Repr

/-- One call to the external recognizer either raises or returns a response;
a response is the list of results, each result the list of its alternatives'
transcript strings. -/
inductive RecognizerOutcome where
  | raises
  | ok (results : List (List String))
deriving DecidableEq, Repr

/-- A recognizer stub: audio content, index of the call within the current
`speech_to_text` invocation, and the config passed, determine the outcome. -/
def Recognizer : Type := List Nat → Nat → RecognitionConfig → RecognizerOutcome

/-- Primary config for `.webm` files (voice_agent.py lines 112-120). -/
def webmConfig : RecognitionConfig :=
  ⟨AudioEncoding.OGG_OPUS, some 48000, "en-US", true, true, "latest_long", some 1⟩

/-- Primary config for every other extension (voice_agent.py lines 124-130):
LINEAR16, no explicit sample rate, no explicit channel count. -/
def defaultConfig : RecognitionConfig :=
  ⟨AudioEncoding.LINEAR16, none, "en-US", true, true, "latest_long", none⟩

/-- The single secondary config tried when the primary call succeeds with zero
results (voice_agent.py lines 149-156). -/
def webmOpusRetryConfig : RecognitionConfig :=
  ⟨AudioEncoding.WEBM_OPUS, some 48000, "en-US", true, true, "latest_long", none⟩

/-- A config built inside the fallback sweep (voice_agent.py lines 186-193). -/
def fallbackConfig (enc : AudioEncoding) (rate : Nat) : RecognitionConfig :=
  ⟨enc, some rate, "en-US", true, true, "latest_long", none⟩

/-- The `encodings` list of the fallback sweep (voice_agent.py lines 171-176). -/
def encodingsList : List AudioEncoding :=
  [AudioEncoding.LINEAR16, AudioEncoding.OGG_OPUS, AudioEncoding.WEBM_OPUS, AudioEncoding.MP3]

/-- The `common_rates` list of the fallback sweep (voice_agent.py line 178). -/
def common_rates : List Nat := [48000, 44100, 16000, 8000]

/-- The two nested `for` loops of the sweep (encoding outer, rate inner)
flattened into the sequence of attempted (encoding, rate) pairs, in
iteration order. -/
def sweepPairs : List (AudioEncoding × Nat) :=
  encodingsList.flatMap fun enc => common_rates.map fun rate => (enc, rate)

/-- The transcripts `result.alternatives[0].transcript` for each result, in
order; `none` if some result has no alternatives (Python would raise
`IndexError`). -/
def firstAlternatives : List (List String) → Option (List String)
  | [] => some []
  | seg :: rest =>
    match seg with
    | [] => none
    | alt :: _ => (firstAlternatives rest).map fun ts => alt :: ts

/-- Model of `" ".join(result.alternatives[0].transcript for result in
response.results)`: `none` means the expression raised. -/
def joinTranscripts (results : List (List String)) : Option String :=
  (firstAlternatives results).map (String.intercalate " ")

/-- The join rule as the specification words it: the first-alternative text of
each segment, in backend order, joined by a single ASCII space.  Stated for
comparison with `joinTranscripts`, which is translated from the code. -/
def specJoinRule (results : List (List String)) : String :=
  String.intercalate " " (results.map fun seg => seg.headD "")

/-- Model of Python's `str.lower()` as used on the file extension (ASCII
case folding, applied characterwise); written on the character list so that
it evaluates by kernel reduction. -/
def pyLower (s : String) : String := String.mk (s.data.map Char.toLower)

/-- Primary attempt selection (voice_agent.py lines 100, 110-131): extension
lowered, `.webm` gets `webmConfig`, anything else `defaultConfig`. -/
def primaryConfigFor (audio_ext : String) : RecognitionConfig :=
  if pyLower audio_ext = ".webm" then webmConfig else defaultConfig

/-- The fallback sweep (voice_agent.py lines 182-206) over a list of
(encoding, rate) pairs: each attempt calls the recognizer once; an exception
or the join raising is swallowed and the sweep continues; a non-empty result
whose join succeeds is returned at once; exhaustion yields the failure
sentinel.  `idx` is the index of the next recognizer call. -/
def sweepAttempts (recognize : Recognizer) (content : List Nat) (idx : Nat) :
    List (AudioEncoding × Nat) → String
  | [] => "Could not transcribe audio. Speech recognition failed."
  | (enc, rate) :: rest =>
    match recognize content idx (fallbackConfig enc rate) with
    | RecognizerOutcome.raises => sweepAttempts recognize content (idx + 1) rest
    | RecognizerOutcome.ok results =>
      match results with
      | [] => sweepAttempts recognize content (idx + 1) rest
      | _ :: _ =>
        match joinTranscripts results with
        | some t => t
        | none => sweepAttempts recognize content (idx + 1) rest

/-- `VoiceAgent.speech_to_text` (voice_agent.py lines 87-206).  The `try`
block spans the primary call, its join, the secondary WEBM_OPUS call and its
join; any exception there enters the fallback sweep. -/
def speech_to_text (recognize : Recognizer) (content : List Nat)
    (audio_ext : String) : String :=
  let config := primaryConfigFor audio_ext
  match recognize content 0 config with
  | RecognizerOutcome.raises => sweepAttempts recognize content 1 sweepPairs
  | RecognizerOutcome.ok results =>
    match results with
    | [] =>
      match recognize content 1 webmOpusRetryConfig with
      | RecognizerOutcome.raises => sweepAttempts recognize content 2 sweepPairs
      | RecognizerOutcome.ok results2 =>
        match results2 with
        | [] => "No speech detected in audio file"
        | _ :: _ =>
          match joinTranscripts results2 with
          | some t => t
          | none => sweepAttempts recognize content 2 sweepPairs
    | _ :: _ =>
      match joinTranscripts results with
      | some t => t
      | none => sweepAttempts recognize content 1 sweepPairs

/-- Trace-instrumented sweep: same result as `sweepAttempts`, plus the list of
configs actually passed to the recognizer, in call order. -/
def sweepAttemptsTrace (recognize : Recognizer) (content : List Nat) (idx : Nat) :
    List (AudioEncoding × Nat) → String × List RecognitionConfig
  | [] => ("Could not transcribe audio. Speech recognition failed.", [])
  | (enc, rate) :: rest =>
    match recognize content idx (fallbackConfig enc rate) with
    | RecognizerOutcome.raises =>
      let r := sweepAttemptsTrace recognize content (idx + 1) rest
      (r.1, fallbackConfig enc rate :: r.2)
    | RecognizerOutcome.ok results =>
      match results with
      | [] =>
        let r := sweepAttemptsTrace recognize content (idx + 1) rest
        (r.1, fallbackConfig enc rate :: r.2)
      | _ :: _ =>
        match joinTranscripts results with
        | some t => (t, [fallbackConfig enc rate])
        | none =>
          let r := sweepAttemptsTrace recognize content (idx + 1) rest
          (r.1, fallbackConfig enc rate :: r.2)

/-- Trace-instrumented `speech_to_text`: same result, plus the list of configs
passed to the recognizer, in call order. -/
def speech_to_textTrace (recognize : Recognizer) (content : List Nat)
    (audio_ext : String) : String × List RecognitionConfig :=
  let config := primaryConfigFor audio_ext
  match recognize content 0 config with
  | RecognizerOutcome.raises =>
    let r := sweepAttemptsTrace recognize content 1 sweepPairs
    (r.1, config :: r.2)
  | RecognizerOutcome.ok results =>
    match results with
    | [] =>
      match recognize content 1 webmOpusRetryConfig with
      | RecognizerOutcome.raises =>
        let r := sweepAttemptsTrace recognize content 2 sweepPairs
        (r.1, config :: webmOpusRetryConfig :: r.2)
      | RecognizerOutcome.ok results2 =>
        match results2 with
        | [] => ("No speech detected in audio file", [config, webmOpusRetryConfig])
        | _ :: _ =>
          match joinTranscripts results2 with
          | some t => (t, [config, webmOpusRetryConfig])
          | none =>
            let r := sweepAttemptsTrace recognize content 2 sweepPairs
            (r.1, config :: webmOpusRetryConfig :: r.2)
    | _ :: _ =>
      match joinTranscripts results with
      | some t => (t, [config])
      | none =>
        let r := sweepAttemptsTrace recognize content 1 sweepPairs
        (r.1, config :: r.2)

theorem sweepAttemptsTrace_fst (recognize : Recognizer) (content : List Nat) :
    ∀ (pairs : List (AudioEncoding × Nat)) (idx : Nat),
      (sweepAttemptsTrace recognize content idx pairs).1 =
        sweepAttempts recognize content idx pairs := by
  intro pairs
  induction pairs with
  | nil => intro idx; rfl
  | cons p rest ih =>
    intro idx
    obtain ⟨enc, rate⟩ := p
    cases hout : recognize content idx (fallbackConfig enc rate) with
    | raises => simp [sweepAttemptsTrace, sweepAttempts, hout, ih (idx + 1)]
    | ok results =>
      cases results with
      | nil => simp [sweepAttemptsTrace, sweepAttempts, hout, ih (idx + 1)]
      | cons r rs =>
        cases hj : joinTranscripts (r :: rs) with
        | some t => simp [sweepAttemptsTrace, sweepAttempts, hout, hj]
        | none => simp [sweepAttemptsTrace, sweepAttempts, hout, hj, ih (idx + 1)]

theorem speech_to_textTrace_fst (recognize : Recognizer) (content : List Nat)
    (audio_ext : String) :
    (speech_to_textTrace recognize content audio_ext).1 =
      speech_to_text recognize content audio_ext := by
  cases h0 : recognize content 0 (primaryConfigFor audio_ext) with
  | raises =>
    simp [speech_to_textTrace, speech_to_text, h0,
      sweepAttemptsTrace_fst recognize content sweepPairs 1]
  | ok results =>
    cases results with
    | nil =>
      cases h1 : recognize content 1 webmOpusRetryConfig with
      | raises =>
        simp [speech_to_textTrace, speech_to_text, h0, h1,
          sweepAttemptsTrace_fst recognize content sweepPairs 2]
      | ok results2 =>
        cases results2 with
        | nil => simp [speech_to_textTrace, speech_to_text, h0, h1]
        | cons r rs =>
          cases hj : joinTranscripts (r :: rs) with
          | some t => simp [speech_to_textTrace, speech_to_text, h0, h1, hj]
          | none =>
            simp [speech_to_textTrace, speech_to_text, h0, h1, hj,
              sweepAttemptsTrace_fst recognize content sweepPairs 2]
    | cons r rs =>
      cases hj : joinTranscripts (r :: rs) with
      | some t => simp [speech_to_textTrace, speech_to_text, h0, hj]
      | none =>
        simp [speech_to_textTrace, speech_to_text, h0, hj,
          sweepAttemptsTrace_fst recognize content sweepPairs 1]

theorem joinTranscripts_of_wellformed :
    ∀ (results : List (List String)), (∀ seg ∈ results, seg ≠ []) →
      joinTranscripts results = some (specJoinRule results) := by
  intro results h
  suffices hfa : firstAlternatives results = some (results.map fun seg => seg.headD "") by
    simp [joinTranscripts, hfa, specJoinRule]
  induction results with
  | nil => rfl
  | cons seg rest ih =>
    have hseg : seg ≠ [] := h seg (List.mem_cons_self _ _)
    obtain ⟨a, as, rfl⟩ := List.exists_cons_of_ne_nil hseg
    have := ih (fun s hs => h s (List.mem_cons_of_mem _ hs))
    simp [firstAlternatives, this]

theorem sweepAttempts_result (recognize : Recognizer) (content : List Nat) :
    ∀ (pairs : List (AudioEncoding × Nat)) (idx : Nat),
      sweepAttempts recognize content idx pairs =
          "Could not transcribe audio. Speech recognition failed." ∨
        ∃ results : List (List String), results ≠ [] ∧
          joinTranscripts results = some (sweepAttempts recognize content idx pairs) := by
  intro pairs
  induction pairs with
  | nil => intro idx; exact Or.inl rfl
  | cons p rest ih =>
    intro idx
    obtain ⟨enc, rate⟩ := p
    cases hout : recognize content idx (fallbackConfig enc rate) with
    | raises => simpa [sweepAttempts, hout] using ih (idx + 1)
    | ok results =>
      cases results with
      | nil => simpa [sweepAttempts, hout] using ih (idx + 1)
      | cons r rs =>
        cases hj : joinTranscripts (r :: rs) with
        | none => simpa [sweepAttempts, hout, hj] using ih (idx + 1)
        | some t =>
          refine Or.inr ⟨r :: rs, by simp, ?_⟩
          simp [sweepAttempts, hout, hj]

theorem sweepAttempts_all_fail (recognize : Recognizer) (content : List Nat) :
    ∀ (pairs : List (AudioEncoding × Nat)) (idx : Nat),
      (∀ k (hk : k < pairs.length),
        recognize content (idx + k) (fallbackConfig pairs[k].1 pairs[k].2) =
            RecognizerOutcome.raises ∨
          recognize content (idx + k) (fallbackConfig pairs[k].1 pairs[k].2) =
            RecognizerOutcome.ok []) →
      sweepAttempts recognize content idx pairs =
        "Could not transcribe audio. Speech recognition failed." := by
  intro pairs
  induction pairs with
  | nil => intro idx _; rfl
  | cons p rest ih =>
    intro idx h
    obtain ⟨enc, rate⟩ := p
    have hrest : ∀ k (hk : k < rest.length),
        recognize content (idx + 1 + k)
            (fallbackConfig rest[k].1 rest[k].2) =
          RecognizerOutcome.raises ∨
        recognize content (idx + 1 + k)
            (fallbackConfig rest[k].1 rest[k].2) =
          RecognizerOutcome.ok [] := by
      intro k hk
      have h2 := h (k + 1) (Nat.succ_lt_succ hk)
      have e : idx + (k + 1) = idx + 1 + k := by omega
      simpa only [List.getElem_cons_succ, e] using h2
    have h0 := h 0 (Nat.succ_pos _)
    simp only [List.getElem_cons_zero, Nat.add_zero] at h0
    rcases h0 with h0 | h0 <;> simp [sweepAttempts, h0, ih (idx + 1) hrest]

theorem sweepAttemptsTrace_first_success (recognize : Recognizer) (content : List Nat) :
    ∀ (pre : List (AudioEncoding × Nat)) (p : AudioEncoding × Nat)
      (post : List (AudioEncoding × Nat)) (idx : Nat) (results : List (List String)),
      (∀ k (hk : k < pre.length),
        recognize content (idx + k) (fallbackConfig pre[k].1 pre[k].2) =
            RecognizerOutcome.raises ∨
          recognize content (idx + k) (fallbackConfig pre[k].1 pre[k].2) =
            RecognizerOutcome.ok []) →
      recognize content (idx + pre.length) (fallbackConfig p.1 p.2) =
        RecognizerOutcome.ok results →
      results ≠ [] →
      (∀ seg ∈ results, seg ≠ []) →
      sweepAttemptsTrace recognize content idx (pre ++ p :: post) =
        (specJoinRule results, (pre ++ [p]).map fun q => fallbackConfig q.1 q.2) := by
  intro pre
  induction pre with
  | nil =>
    intro p post idx results _ hp hne hwf
    obtain ⟨enc, rate⟩ := p
    simp only [List.length_nil, Nat.add_zero] at hp
    obtain ⟨r, rs, rfl⟩ := List.exists_cons_of_ne_nil hne
    have hj := joinTranscripts_of_wellformed (r :: rs) hwf
    simp [sweepAttemptsTrace, hp, hj]
  | cons q pre' ih =>
    intro p post idx results hfail hp hne hwf
    obtain ⟨enc, rate⟩ := q
    have hrest : ∀ k (hk : k < pre'.length),
        recognize content (idx + 1 + k)
            (fallbackConfig pre'[k].1 pre'[k].2) =
          RecognizerOutcome.raises ∨
        recognize content (idx + 1 + k)
            (fallbackConfig pre'[k].1 pre'[k].2) =
          RecognizerOutcome.ok [] := by
      intro k hk
      have h2 := hfail (k + 1) (Nat.succ_lt_succ hk)
      have e : idx + (k + 1) = idx + 1 + k := by omega
      simpa only [List.getElem_cons_succ, e] using h2
    have hp' : recognize content (idx + 1 + pre'.length) (fallbackConfig p.1 p.2) =
        RecognizerOutcome.ok results := by
      have : idx + (pre'.length + 1) = idx + 1 + pre'.length := by omega
      simpa [List.length_cons, this] using hp
    have h0 := hfail 0 (Nat.succ_pos _)
    simp only [List.getElem_cons_zero, Nat.add_zero] at h0
    have ihres := ih p post (idx + 1) results hrest hp' hne hwf
    rcases h0 with h0 | h0 <;> simp [sweepAttemptsTrace, h0, ihres]

/-- C1: for every behaviour of the external recognizer (any sequence of
results or raised exceptions), `speech_to_text` returns a string and never
raises: the result is either a joined transcript of some non-empty response,
the empty-result string, or the failure sentinel string. -/
theorem c1_total_and_result_shape (recognize : Recognizer) (content : List Nat)
    (audio_ext : String) :
    speech_to_text recognize content audio_ext = "No speech detected in audio file" ∨
    speech_to_text recognize content audio_ext =
        "Could not transcribe audio. Speech recognition failed." ∨
    ∃ results : List (List String), results ≠ [] ∧
      joinTranscripts results = some (speech_to_text recognize content audio_ext) := by
  have hsw : ∀ idx : Nat,
      sweepAttempts recognize content idx sweepPairs =
          "Could not transcribe audio. Speech recognition failed." ∨
        ∃ results : List (List String), results ≠ [] ∧
          joinTranscripts results = some (sweepAttempts recognize content idx sweepPairs) :=
    fun idx => sweepAttempts_result recognize content sweepPairs idx
  cases h0 : recognize content 0 (primaryConfigFor audio_ext) with
  | raises =>
    have := hsw 1
    rcases this with h | h
    · exact Or.inr (Or.inl (by simp [speech_to_text, h0, h]))
    · refine Or.inr (Or.inr ?_)
      simpa [speech_to_text, h0] using h
  | ok results =>
    cases results with
    | nil =>
      cases h1 : recognize content 1 webmOpusRetryConfig with
      | raises =>
        rcases hsw 2 with h | h
        · exact Or.inr (Or.inl (by simp [speech_to_text, h0, h1, h]))
        · exact Or.inr (Or.inr (by simpa [speech_to_text, h0, h1] using h))
      | ok results2 =>
        cases results2 with
        | nil => exact Or.inl (by simp [speech_to_text, h0, h1])
        | cons r rs =>
          cases hj : joinTranscripts (r :: rs) with
          | some t =>
            refine Or.inr (Or.inr ⟨r :: rs, by simp, ?_⟩)
            simp [speech_to_text, h0, h1, hj]
          | none =>
            rcases hsw 2 with h | h
            · exact Or.inr (Or.inl (by simp [speech_to_text, h0, h1, hj, h]))
            · exact Or.inr (Or.inr (by simpa [speech_to_text, h0, h1, hj] using h))
    | cons r rs =>
      cases hj : joinTranscripts (r :: rs) with
      | some t =>
        refine Or.inr (Or.inr ⟨r :: rs, by simp, ?_⟩)
        simp [speech_to_text, h0, hj]
      | none =>
        rcases hsw 1 with h | h
        · exact Or.inr (Or.inl (by simp [speech_to_text, h0, hj, h]))
        · exact Or.inr (Or.inr (by simpa [speech_to_text, h0, hj] using h))

/-- C2: the fallback sweep iterates encodings {LINEAR16, OGG_OPUS, WEBM_OPUS,
MP3} as the outer loop and rates {48000, 44100, 16000, 8000} as the inner
loop, in that fixed nesting and order (16 attempts total); the first attempt
in that flattened order returning at least one segment has its joined
transcript returned immediately, no later pair is attempted, and exceptions
raised by earlier sweep attempts are swallowed (the sweep continues). -/
theorem c2_sweep_order_short_circuit :
    sweepPairs =
      [(AudioEncoding.LINEAR16, 48000), (AudioEncoding.LINEAR16, 44100),
       (AudioEncoding.LINEAR16, 16000), (AudioEncoding.LINEAR16, 8000),
       (AudioEncoding.OGG_OPUS, 48000), (AudioEncoding.OGG_OPUS, 44100),
       (AudioEncoding.OGG_OPUS, 16000), (AudioEncoding.OGG_OPUS, 8000),
       (AudioEncoding.WEBM_OPUS, 48000), (AudioEncoding.WEBM_OPUS, 44100),
       (AudioEncoding.WEBM_OPUS, 16000), (AudioEncoding.WEBM_OPUS, 8000),
       (AudioEncoding.MP3, 48000), (AudioEncoding.MP3, 44100),
       (AudioEncoding.MP3, 16000), (AudioEncoding.MP3, 8000)] ∧
    ∀ (recognize : Recognizer) (content : List Nat) (idx : Nat)
      (pre : List (AudioEncoding × Nat)) (p : AudioEncoding × Nat)
      (post : List (AudioEncoding × Nat)) (results : List (List String)),
      sweepPairs = pre ++ p :: post →
      (∀ k (hk : k < pre.length),
        recognize content (idx + k) (fallbackConfig pre[k].1 pre[k].2) =
            RecognizerOutcome.raises ∨
          recognize content (idx + k) (fallbackConfig pre[k].1 pre[k].2) =
            RecognizerOutcome.ok []) →
      recognize content (idx + pre.length) (fallbackConfig p.1 p.2) =
        RecognizerOutcome.ok results →
      results ≠ [] →
      (∀ seg ∈ results, seg ≠ []) →
      sweepAttemptsTrace recognize content idx sweepPairs =
        (specJoinRule results, (pre ++ [p]).map fun q => fallbackConfig q.1 q.2) := by
  refine ⟨by decide, ?_⟩
  intro recognize content idx pre p post results hsplit hfail hp hne hwf
  rw [hsplit]
  exact sweepAttemptsTrace_first_success recognize content pre p post idx results hfail hp hne hwf

/-- Witness for C2: a stub that raises on the first five sweep pairs and
returns a transcript at (OGG_OPUS, 44100); the sweep returns that transcript
and attempts exactly the first six pairs. -/
theorem c2_sweep_order_short_circuit_witness :
    sweepAttemptsTrace
        (fun _ _ cfg =>
          if cfg = fallbackConfig AudioEncoding.OGG_OPUS 44100 then
            RecognizerOutcome.ok [["hello"]]
          else RecognizerOutcome.raises)
        [] 1 sweepPairs =
      (specJoinRule [["hello"]],
        (([(AudioEncoding.LINEAR16, 48000), (AudioEncoding.LINEAR16, 44100),
           (AudioEncoding.LINEAR16, 16000), (AudioEncoding.LINEAR16, 8000),
           (AudioEncoding.OGG_OPUS, 48000)] :
             List (AudioEncoding × Nat)) ++
            [(AudioEncoding.OGG_OPUS, 44100)]).map
          fun (q : AudioEncoding × Nat) => fallbackConfig q.1 q.2) :=
  c2_sweep_order_short_circuit.2
    (fun _ _ cfg =>
      if cfg = fallbackConfig AudioEncoding.OGG_OPUS 44100 then
        RecognizerOutcome.ok [["hello"]]
      else RecognizerOutcome.raises)
    [] 1
    [(AudioEncoding.LINEAR16, 48000), (AudioEncoding.LINEAR16, 44100),
     (AudioEncoding.LINEAR16, 16000), (AudioEncoding.LINEAR16, 8000),
     (AudioEncoding.OGG_OPUS, 48000)]
    (AudioEncoding.OGG_OPUS, 44100)
    [(AudioEncoding.OGG_OPUS, 16000), (AudioEncoding.OGG_OPUS, 8000),
     (AudioEncoding.WEBM_OPUS, 48000), (AudioEncoding.WEBM_OPUS, 44100),
     (AudioEncoding.WEBM_OPUS, 16000), (AudioEncoding.WEBM_OPUS, 8000),
     (AudioEncoding.MP3, 48000), (AudioEncoding.MP3, 44100),
     (AudioEncoding.MP3, 16000), (AudioEncoding.MP3, 8000)]
    [["hello"]]
    (by decide) (by decide) (by decide) (by decide) (by decide)

/-- Recognizer stub for the C3 counterexample: the primary call succeeds with
zero results, every later call (the secondary WEBM_OPUS attempt included)
raises. -/
def c3Recognizer : Recognizer := fun _ idx _ =>
  if idx = 0 then RecognizerOutcome.ok [] else RecognizerOutcome.raises

/-- C3 counterexample: the primary call succeeds (with zero segments), the
secondary WEBM_OPUS attempt raises, and the fallback sweep IS entered — the
trace contains sweep configs and the result is the failure sentinel.  This
refutes the claim that the sweep is entered only on a step-1 exception and
that no sweep attempt is made whenever the primary call succeeds. -/
theorem c3_counterexample :
    c3Recognizer [] 0 (primaryConfigFor ".mp3") = RecognizerOutcome.ok [] ∧
    fallbackConfig AudioEncoding.LINEAR16 48000 ∈
      (speech_to_textTrace c3Recognizer [] ".mp3").2 ∧
    speech_to_text c3Recognizer [] ".mp3" =
      "Could not transcribe audio. Speech recognition failed." := by
  refine ⟨rfl, ?_, rfl⟩
  decide

/-- C3 (amended): the fallback sweep is entered only on an exception raised
inside the guarded block — by the step-1 primary call, by the joining of its
results, or by the step-3 secondary attempt or the joining of its results —
and the primary config is never retried by the sweep.  In particular, if the
primary call succeeds with at least one segment (each with an alternative),
no sweep attempt is made; and if the primary call returns zero segments and
the secondary attempt returns a response (with well-formed segments), no
sweep attempt is made either, but if the secondary attempt raises the sweep
IS entered. -/
theorem c3_amended (recognize : Recognizer) (content : List Nat) (audio_ext : String) :
    (∀ results : List (List String),
      recognize content 0 (primaryConfigFor audio_ext) = RecognizerOutcome.ok results →
      results ≠ [] → (∀ seg ∈ results, seg ≠ []) →
      (speech_to_textTrace recognize content audio_ext).2 = [primaryConfigFor audio_ext]) ∧
    (∀ results2 : List (List String),
      recognize content 0 (primaryConfigFor audio_ext) = RecognizerOutcome.ok [] →
      recognize content 1 webmOpusRetryConfig = RecognizerOutcome.ok results2 →
      (∀ seg ∈ results2, seg ≠ []) →
      (speech_to_textTrace recognize content audio_ext).2 =
        [primaryConfigFor audio_ext, webmOpusRetryConfig]) ∧
    (∀ q ∈ sweepPairs, fallbackConfig q.1 q.2 ≠ primaryConfigFor audio_ext) := by
  refine ⟨?_, ?_, ?_⟩
  · intro results h0 hne hwf
    obtain ⟨r, rs, rfl⟩ := List.exists_cons_of_ne_nil hne
    have hj := joinTranscripts_of_wellformed (r :: rs) hwf
    simp [speech_to_textTrace, h0, hj]
  · intro results2 h0 h1 hwf
    cases results2 with
    | nil => simp [speech_to_textTrace, h0, h1]
    | cons r rs =>
      have hj := joinTranscripts_of_wellformed (r :: rs) hwf
      simp [speech_to_textTrace, h0, h1, hj]
  · intro q _
    rcases q with ⟨e, r⟩
    unfold primaryConfigFor
    split
    · simp [fallbackConfig, webmConfig]
    · simp [fallbackConfig, defaultConfig]

/-- Witness for C3 (amended): a stub whose primary call succeeds non-empty
attempts only the primary config; a stub whose primary call is empty and
whose secondary call succeeds attempts exactly the two configs; and the
LINEAR16@48000 sweep config differs from the primary config for ".wav". -/
theorem c3_amended_witness :
    (speech_to_textTrace (fun _ _ _ => RecognizerOutcome.ok [["hi"]]) [] ".wav").2 =
        [primaryConfigFor ".wav"] ∧
    (speech_to_textTrace
        (fun _ idx _ =>
          if idx = 0 then RecognizerOutcome.ok [] else RecognizerOutcome.ok [["hi"]])
        [] ".wav").2 =
      [primaryConfigFor ".wav", webmOpusRetryConfig] ∧
    fallbackConfig AudioEncoding.LINEAR16 48000 ≠ primaryConfigFor ".wav" := by
  refine ⟨?_, ?_, ?_⟩
  · exact (c3_amended (fun _ _ _ => RecognizerOutcome.ok [["hi"]]) [] ".wav").1
      [["hi"]] rfl (by simp) (by simp)
  · exact (c3_amended
      (fun _ idx _ =>
        if idx = 0 then RecognizerOutcome.ok [] else RecognizerOutcome.ok [["hi"]])
      [] ".wav").2.1 [["hi"]] rfl rfl (by simp)
  · exact (c3_amended (fun _ _ _ => RecognizerOutcome.raises) [] ".wav").2.2
      (AudioEncoding.LINEAR16, 48000) (by decide)

/-- C4: when the primary call succeeds with zero segments, exactly one
secondary attempt is made, with the exact config {WEBM_OPUS, 48000 Hz,
latest_long, punctuation, enhanced}; a non-empty secondary response has its
joined transcript returned, and an empty one yields exactly
"No speech detected in audio file". -/
theorem c4_secondary_config_and_results :
    webmOpusRetryConfig =
      ⟨AudioEncoding.WEBM_OPUS, some 48000, "en-US", true, true, "latest_long", none⟩ ∧
    ∀ (recognize : Recognizer) (content : List Nat) (audio_ext : String),
      recognize content 0 (primaryConfigFor audio_ext) = RecognizerOutcome.ok [] →
      ((∀ results2 : List (List String),
          recognize content 1 webmOpusRetryConfig = RecognizerOutcome.ok results2 →
          results2 ≠ [] → (∀ seg ∈ results2, seg ≠ []) →
          speech_to_textTrace recognize content audio_ext =
            (specJoinRule results2, [primaryConfigFor audio_ext, webmOpusRetryConfig])) ∧
        (recognize content 1 webmOpusRetryConfig = RecognizerOutcome.ok [] →
          speech_to_textTrace recognize content audio_ext =
            ("No speech detected in audio file",
              [primaryConfigFor audio_ext, webmOpusRetryConfig]))) := by
  refine ⟨rfl, ?_⟩
  intro recognize content audio_ext h0
  constructor
  · intro results2 h1 hne hwf
    obtain ⟨r, rs, rfl⟩ := List.exists_cons_of_ne_nil hne
    have hj := joinTranscripts_of_wellformed (r :: rs) hwf
    simp [speech_to_textTrace, h0, h1, hj, specJoinRule]
  · intro h1
    simp [speech_to_textTrace, h0, h1]

/-- Witness for C4: a stub empty on the primary and non-empty on the
secondary returns the secondary transcript after exactly two calls; a stub
empty on both returns the empty-result sentinel after exactly two calls. -/
theorem c4_secondary_config_and_results_witness :
    speech_to_textTrace
        (fun _ idx _ =>
          if idx = 0 then RecognizerOutcome.ok [] else RecognizerOutcome.ok [["ok"]])
        [] ".mp3" =
      (specJoinRule [["ok"]], [primaryConfigFor ".mp3", webmOpusRetryConfig]) ∧
    speech_to_textTrace (fun _ _ _ => RecognizerOutcome.ok []) [] ".mp3" =
      ("No speech detected in audio file",
        [primaryConfigFor ".mp3", webmOpusRetryConfig]) := by
  constructor
  · exact ((c4_secondary_config_and_results.2
      (fun _ idx _ =>
        if idx = 0 then RecognizerOutcome.ok [] else RecognizerOutcome.ok [["ok"]])
      [] ".mp3" rfl).1 [["ok"]] rfl (by simp) (by simp))
  · exact ((c4_secondary_config_and_results.2
      (fun _ _ _ => RecognizerOutcome.ok []) [] ".mp3" rfl).2 rfl)

/-- C5: if the primary call raises and every one of the 16 sweep attempts
either raises or returns zero segments, `speech_to_text` returns exactly the
failure sentinel, which differs from the empty-result sentinel of the
secondary path. -/
theorem c5_total_failure_sentinel (recognize : Recognizer) (content : List Nat)
    (audio_ext : String) :
    recognize content 0 (primaryConfigFor audio_ext) = RecognizerOutcome.raises →
    (∀ k (hk : k < sweepPairs.length),
      recognize content (1 + k) (fallbackConfig sweepPairs[k].1 sweepPairs[k].2) =
          RecognizerOutcome.raises ∨
        recognize content (1 + k) (fallbackConfig sweepPairs[k].1 sweepPairs[k].2) =
          RecognizerOutcome.ok []) →
    speech_to_text recognize content audio_ext =
        "Could not transcribe audio. Speech recognition failed." ∧
      "Could not transcribe audio. Speech recognition failed." ≠
        "No speech detected in audio file" := by
  intro h0 hall
  refine ⟨?_, by decide⟩
  have hsw := sweepAttempts_all_fail recognize content sweepPairs 1 hall
  simp [speech_to_text, h0, hsw]

/-- Witness for C5: the always-raising stub yields the failure sentinel. -/
theorem c5_total_failure_sentinel_witness :
    speech_to_text (fun _ _ _ => RecognizerOutcome.raises) [] ".mp3" =
        "Could not transcribe audio. Speech recognition failed." ∧
      "Could not transcribe audio. Speech recognition failed." ≠
        "No speech detected in audio file" :=
  c5_total_failure_sentinel (fun _ _ _ => RecognizerOutcome.raises) [] ".mp3" rfl
    (by intro k hk; left; rfl)

/-- C6: the first recognizer call uses OGG_OPUS at 48000 Hz mono for a
`.webm` extension (compared case-insensitively) and LINEAR16 with no explicit
sample rate for every other extension. -/
theorem c6_primary_attempt_selection (recognize : Recognizer) (content : List Nat)
    (audio_ext : String) :
    (speech_to_textTrace recognize content audio_ext).2.head? =
      some (if pyLower audio_ext = ".webm" then webmConfig else defaultConfig) ∧
    webmConfig =
      ⟨AudioEncoding.OGG_OPUS, some 48000, "en-US", true, true, "latest_long", some 1⟩ ∧
    defaultConfig =
      ⟨AudioEncoding.LINEAR16, none, "en-US", true, true, "latest_long", none⟩ := by
  refine ⟨?_, rfl, rfl⟩
  have hhead : (speech_to_textTrace recognize content audio_ext).2.head? =
      some (primaryConfigFor audio_ext) := by
    cases h0 : recognize content 0 (primaryConfigFor audio_ext) with
    | raises => simp [speech_to_textTrace, h0]
    | ok results =>
      cases results with
      | nil =>
        cases h1 : recognize content 1 webmOpusRetryConfig with
        | raises => simp [speech_to_textTrace, h0, h1]
        | ok results2 =>
          cases results2 with
          | nil => simp [speech_to_textTrace, h0, h1]
          | cons r rs =>
            cases hj : joinTranscripts (r :: rs) with
            | some t => simp [speech_to_textTrace, h0, h1, hj]
            | none => simp [speech_to_textTrace, h0, h1, hj]
      | cons r rs =>
        cases hj : joinTranscripts (r :: rs) with
        | some t => simp [speech_to_textTrace, h0, hj]
        | none => simp [speech_to_textTrace, h0, hj]
  simpa [primaryConfigFor] using hhead

/-- C7: whenever a response with at least one segment is turned into the
returned transcript, the transcript is the first-alternative text of each
segment, in backend order, joined by a single ASCII space, with no trimming
and no deduplication; segments ["hello"], ["world"] yield "hello world". -/
theorem c7_join_rule :
    (∀ results : List (List String), (∀ seg ∈ results, seg ≠ []) →
      joinTranscripts results = some (specJoinRule results)) ∧
    (∀ (recognize : Recognizer) (content : List Nat) (audio_ext : String)
        (results : List (List String)),
      recognize content 0 (primaryConfigFor audio_ext) = RecognizerOutcome.ok results →
      results ≠ [] → (∀ seg ∈ results, seg ≠ []) →
      speech_to_text recognize content audio_ext = specJoinRule results) ∧
    joinTranscripts [["hello"], ["world"]] = some "hello world" := by
  refine ⟨joinTranscripts_of_wellformed, ?_, rfl⟩
  intro recognize content audio_ext results h0 hne hwf
  obtain ⟨r, rs, rfl⟩ := List.exists_cons_of_ne_nil hne
  have hj := joinTranscripts_of_wellformed (r :: rs) hwf
  simp [speech_to_text, h0, hj]

/-- Witness for C7: the join of two well-formed segments. -/
theorem c7_join_rule_witness :
    joinTranscripts [["alpha", "unused"], ["beta"]] =
      some (specJoinRule [["alpha", "unused"], ["beta"]]) :=
  c7_join_rule.1 [["alpha", "unused"], ["beta"]] (by simp)

/-- C8: the algorithm is deterministic — against stubs with identical
behaviour (and identical audio bytes and extension), two invocations of
`speech_to_text` yield identical output strings; there is no randomness and
no state surviving between calls. -/
theorem c8_deterministic (recognize recognize2 : Recognizer) (content : List Nat)
    (audio_ext : String) :
    (∀ (c : List Nat) (i : Nat) (cfg : RecognitionConfig),
      recognize c i cfg = recognize2 c i cfg) →
    speech_to_text recognize content audio_ext =
      speech_to_text recognize2 content audio_ext := by
  intro h
  have heq : recognize = recognize2 :=
    funext fun c => funext fun i => funext fun cfg => h c i cfg
  rw [heq]

/-- Witness for C8: two runs against the same always-raising stub agree. -/
theorem c8_deterministic_witness :
    speech_to_text (fun _ _ _ => RecognizerOutcome.raises) [] ".webm" =
      speech_to_text (fun _ _ _ => RecognizerOutcome.raises) [] ".webm" :=
  c8_deterministic (fun _ _ _ => RecognizerOutcome.raises)
    (fun _ _ _ => RecognizerOutcome.raises) [] ".webm" (fun _ _ _ => rfl)

/-!
Model of `clean_llm_json` (llm_response_handling.py lines 4-47) for string
inputs (the attribute-dispatch for response objects with `.text`/`.content`
is outside the model's string-typed domain).

The Python `json` module and `re` module are external libraries; they are
modelled as follows, at the level of detail the claims need:
  * `re.sub(r'```(?:json|javascript)?\s*\n?(.*?)\n?```', r'\1', text,
    flags=re.DOTALL)` is modelled by `pySubFences`: left-to-right scan; at a
    position starting with three backticks, an optional literal `json` or
    `javascript` tag, a maximal whitespace run (the greedy `\s*`, after which
    `\n?` necessarily matches empty), then the lazy group runs to the next
    three-backtick fence, a single `\n` immediately before that fence being
    absorbed by the greedy `\n?`; the match is replaced by the group and the
    scan resumes after the fence; if no closing fence exists the position
    does not match.  `\s` is modelled on its ASCII fragment.
  * `str.strip()` is `pyStrip` (ASCII whitespace fragment).
  * `json.loads` is `jsonLoads`: the default (C-accelerated) scanner's
    grammar — values null/true/false, strict strings with escapes and
    `\uXXXX` (surrogate pairs combined; lone surrogates are not representable
    as Lean `Char` and map to U+0000), numbers per the JSON number grammar
    kept as their lexemes (Python converts to int/float; no claim depends on
    numeric values), the extensions NaN, Infinity and -Infinity, arrays and
    objects with the usual whitespace handling, and trailing non-whitespace
    rejected.  Object members are kept in textual order (Python's dict
    overwrites duplicate keys; no claim depends on that).  The recursion fuel
    is generous by construction; Python's recursion-limit `RecursionError` on
    pathologically deep nesting is a resource bound outside the model.
  * `re.search(r'(\{.*\}|\[.*\])', text, re.DOTALL)` is `findJsonSubstring`:
    the first position holding `{` with a later `}` (greedy: up to the last
    `}`), or failing that at that position, `[` with a later `]`.
-/

/-- ASCII fragment of Python whitespace (`str.strip`, regex `\s`). -/
def pyIsSpace (c : Char) : Bool :=
  c = ' ' || c = '\t' || c = '\n' || c = '\r' || c = '\x0b' || c = '\x0c'

/-- JSON whitespace as accepted by `json.loads` between tokens. -/
def jsonWs (c : Char) : Bool :=
  c = ' ' || c = '\t' || c = '\n' || c = '\r'

/-- Skip JSON whitespace. -/
def skipWs (l : List Char) : List Char := l.dropWhile jsonWs

/-- The backtick character. -/
def backtick : Char := Char.ofNat 96

/-- Does the list start with three backticks (a markdown fence)? -/
def startsFence : List Char → Bool
  | a :: b :: c :: _ => a == backtick && b == backtick && c == backtick
  | _ => false

/-- Does the list contain three consecutive backticks anywhere? -/
def hasFence : List Char → Bool
  | [] => false
  | c :: cs => startsFence (c :: cs) || hasFence cs

/-- Split at the first three-backtick fence: `some (before, after)` with the
input equal to `before ++ fence ++ after`, or `none` if no fence occurs. -/
def splitAtFence : List Char → Option (List Char × List Char)
  | [] => none
  | c :: cs =>
    if startsFence (c :: cs) then some ([], cs.drop 2)
    else (splitAtFence cs).map fun p => (c :: p.1, p.2)

/-- Is the first list a prefix of the second? -/
def startsWithChars : List Char → List Char → Bool
  | [], _ => true
  | _ :: _, [] => false
  | p :: ps, c :: cs => p == c && startsWithChars ps cs

/-- Length of the optional fence tag `(?:json|javascript)?` matched after an
opening fence (alternatives tried left to right, then empty). -/
def fenceTagLen (l : List Char) : Nat :=
  if startsWithChars "json".data l then 4
  else if startsWithChars "javascript".data l then 10
  else 0

/-- Match the fence pattern at the head of the input: `some (group, after)`
is the content of capture group 1 and the text after the whole match. -/
def matchFenceAt (l : List Char) : Option (List Char × List Char) :=
  if startsFence l then
    let s1 := l.drop 3
    let s2 := s1.drop (fenceTagLen s1)
    let s3 := s2.dropWhile pyIsSpace
    match splitAtFence s3 with
    | some (before, after) =>
      if before.getLast? = some '\n' then some (before.dropLast, after)
      else some (before, after)
    | none => none
  else none

/-- `re.sub` driver: scan left to right, replace each match by its group 1,
resume after the match.  Fuel is the scan budget; `pySubFences` supplies the
input length, which suffices since every step consumes at least one
character. -/
def pySubFencesAux : Nat → List Char → List Char
  | 0, l => l
  | _ + 1, [] => []
  | fuel + 1, c :: cs =>
    match matchFenceAt (c :: cs) with
    | some (grp, rest) => grp ++ pySubFencesAux fuel rest
    | none => c :: pySubFencesAux fuel cs

/-- Model of the fence-stripping `re.sub` call of `clean_llm_json`. -/
def pySubFences (l : List Char) : List Char := pySubFencesAux l.length l

/-- Model of Python `str.strip()` (ASCII whitespace fragment). -/
def pyStrip (l : List Char) : List Char :=
  ((l.dropWhile pyIsSpace).reverse.dropWhile pyIsSpace).reverse

/-- Values produced by `json.loads`, with number literals kept as lexemes. -/
inductive JsonValue where
  | null
  | bool (b : Bool)
  | num (lexeme : String)
  | str (s : String)
  | arr (elems : List JsonValue)
  | obj (members : List (String × JsonValue))

/-- Value of a hexadecimal digit. -/
def hexDigitVal (c : Char) : Option Nat :=
  if '0' ≤ c ∧ c ≤ '9' then some (c.toNat - 48)
  else if 'a' ≤ c ∧ c ≤ 'f' then some (c.toNat - 87)
  else if 'A' ≤ c ∧ c ≤ 'F' then some (c.toNat - 55)
  else none

/-- Value of a `\uXXXX` escape's four hex digits. -/
def hexQuad (h1 h2 h3 h4 : Char) : Option Nat :=
  match hexDigitVal h1, hexDigitVal h2, hexDigitVal h3, hexDigitVal h4 with
  | some a, some b, some c, some d => some (((a * 16 + b) * 16 + c) * 16 + d)
  | _, _, _, _ => none

/-- Single-character JSON string escapes. -/
def escChar (c : Char) : Option Char :=
  if c = '"' then some '"'
  else if c = '\\' then some '\\'
  else if c = '/' then some '/'
  else if c = 'b' then some (Char.ofNat 8)
  else if c = 'f' then some (Char.ofNat 12)
  else if c = 'n' then some '\n'
  else if c = 'r' then some '\r'
  else if c = 't' then some '\t'
  else none

/-- Scan a JSON string body after the opening quote: the decoded characters
and the text after the closing quote; `none` on any malformed content
(unterminated string, bad escape, raw control character). -/
def scanStringAux : Nat → List Char → Option (List Char × List Char)
  | 0, _ => none
  | _ + 1, [] => none
  | _ + 1, '"' :: rest => some ([], rest)
  | fuel + 1, '\\' :: 'u' :: h1 :: h2 :: h3 :: h4 :: rest =>
    (match hexQuad h1 h2 h3 h4 with
     | none => none
     | some n =>
       match rest with
       | '\\' :: 'u' :: g1 :: g2 :: g3 :: g4 :: rest2 =>
         (match hexQuad g1 g2 g3 g4 with
          | some m =>
            if 0xD800 ≤ n ∧ n ≤ 0xDBFF ∧ 0xDC00 ≤ m ∧ m ≤ 0xDFFF then
              (scanStringAux fuel rest2).map fun p =>
                (Char.ofNat (0x10000 + (n - 0xD800) * 0x400 + (m - 0xDC00)) :: p.1, p.2)
            else (scanStringAux fuel rest).map fun p => (Char.ofNat n :: p.1, p.2)
          | none => (scanStringAux fuel rest).map fun p => (Char.ofNat n :: p.1, p.2))
       | _ => (scanStringAux fuel rest).map fun p => (Char.ofNat n :: p.1, p.2))
  | fuel + 1, '\\' :: c :: rest =>
    (match escChar c with
     | some d => (scanStringAux fuel rest).map fun p => (d :: p.1, p.2)
     | none => none)
  | _ + 1, '\\' :: [] => none
  | fuel + 1, c :: rest =>
    if c.toNat < 32 then none
    else (scanStringAux fuel rest).map fun p => (c :: p.1, p.2)

/-- Integer part of a JSON number: `0`, or a nonzero digit then digits. -/
def scanIntPart : List Char → Option (List Char × List Char)
  | [] => none
  | c :: rest =>
    if c = '0' then some (['0'], rest)
    else if c.isDigit then
      let s := rest.span Char.isDigit
      some (c :: s.1, s.2)
    else none

/-- Optional fraction part `(\.\d+)?`. -/
def scanFrac (l : List Char) : List Char × List Char :=
  match l with
  | '.' :: rest =>
    let s := rest.span Char.isDigit
    if s.1 = [] then ([], l) else ('.' :: s.1, s.2)
  | _ => ([], l)

/-- Optional exponent part `([eE][-+]?\d+)?`. -/
def scanExp (l : List Char) : List Char × List Char :=
  match l with
  | c :: rest =>
    if c = 'e' ∨ c = 'E' then
      match rest with
      | s :: rest2 =>
        if s = '+' ∨ s = '-' then
          let d := rest2.span Char.isDigit
          if d.1 = [] then ([], l) else (c :: s :: d.1, d.2)
        else
          let d := rest.span Char.isDigit
          if d.1 = [] then ([], l) else (c :: d.1, d.2)
      | [] => ([], l)
    else ([], l)
  | [] => ([], l)

/-- A JSON number lexeme per Python's NUMBER_RE, and the rest of the text. -/
def scanNumber (l : List Char) : Option (List Char × List Char) :=
  match l with
  | '-' :: rest =>
    (scanIntPart rest).map fun p =>
      let f := scanFrac p.2
      let e := scanExp f.2
      ('-' :: (p.1 ++ f.1 ++ e.1), e.2)
  | _ =>
    (scanIntPart l).map fun p =>
      let f := scanFrac p.2
      let e := scanExp f.2
      (p.1 ++ f.1 ++ e.1, e.2)

/-- Parser modes: a single value, the elements of an array after `[` (and
leading whitespace), or the members of an object after `{` (and leading
whitespace), with the elements or members already parsed. -/
inductive PMode where
  | value
  | elems (acc : List JsonValue)
  | members (acc : List (String × JsonValue))

/-- Recursive-descent core of `json.loads`.  Fuel only bounds the recursion
and is supplied generously by `jsonLoads`; all other recursion is inside the
token scanners. -/
def parseCore : Nat → PMode → List Char → Option (JsonValue × List Char)
  | 0, _, _ => none
  | fuel + 1, PMode.value, l =>
    (match l with
     | '"' :: rest =>
       (scanStringAux (rest.length + 1) rest).map fun p =>
         (JsonValue.str (String.mk p.1), p.2)
     | '{' :: rest =>
       (match skipWs rest with
        | '}' :: r2 => some (JsonValue.obj [], r2)
        | r2 => parseCore fuel (PMode.members []) r2)
     | '[' :: rest =>
       (match skipWs rest with
        | ']' :: r2 => some (JsonValue.arr [], r2)
        | r2 => parseCore fuel (PMode.elems []) r2)
     | 't' :: 'r' :: 'u' :: 'e' :: rest => some (JsonValue.bool true, rest)
     | 'f' :: 'a' :: 'l' :: 's' :: 'e' :: rest => some (JsonValue.bool false, rest)
     | 'n' :: 'u' :: 'l' :: 'l' :: rest => some (JsonValue.null, rest)
     | 'N' :: 'a' :: 'N' :: rest => some (JsonValue.num "NaN", rest)
     | 'I' :: 'n' :: 'f' :: 'i' :: 'n' :: 'i' :: 't' :: 'y' :: rest =>
       some (JsonValue.num "Infinity", rest)
     | '-' :: 'I' :: 'n' :: 'f' :: 'i' :: 'n' :: 'i' :: 't' :: 'y' :: rest =>
       some (JsonValue.num "-Infinity", rest)
     | l2 => (scanNumber l2).map fun p => (JsonValue.num (String.mk p.1), p.2))
  | fuel + 1, PMode.elems acc, l =>
    (parseCore fuel PMode.value l).bind fun pv =>
      match skipWs pv.2 with
      | ']' :: r2 => some (JsonValue.arr (acc ++ [pv.1]), r2)
      | ',' :: r2 => parseCore fuel (PMode.elems (acc ++ [pv.1])) (skipWs r2)
      | _ => none
  | fuel + 1, PMode.members acc, l =>
    (match l with
     | '"' :: rest =>
       (scanStringAux (rest.length + 1) rest).bind fun pk =>
         match skipWs pk.2 with
         | ':' :: r2 =>
           (parseCore fuel PMode.value (skipWs r2)).bind fun pv =>
             match skipWs pv.2 with
             | '}' :: r3 =>
               some (JsonValue.obj (acc ++ [(String.mk pk.1, pv.1)]), r3)
             | ',' :: r3 =>
               parseCore fuel (PMode.members (acc ++ [(String.mk pk.1, pv.1)])) (skipWs r3)
             | _ => none
         | _ => none
     | _ => none)

/-- Model of `json.loads` on a character list: skip surrounding whitespace,
parse one value, reject trailing non-whitespace; `none` models
`json.JSONDecodeError`. -/
def jsonLoads (l : List Char) : Option JsonValue :=
  match parseCore (2 * l.length + 4) PMode.value (skipWs l) with
  | some (v, rest) => if skipWs rest = [] then some v else none
  | none => none

/-- The prefix of the list up to and including the last occurrence of `ch`,
or `none` if `ch` does not occur. -/
def takeToLast (ch : Char) : List Char → Option (List Char)
  | [] => none
  | c :: rest =>
    match takeToLast ch rest with
    | some t => some (c :: t)
    | none => if c = ch then some [c] else none

/-- Model of `re.search(r'(\{.*\}|\[.*\])', text, re.DOTALL)`: the matched
substring, if any. -/
def findJsonSubstring : List Char → Option (List Char)
  | [] => none
  | c :: rest =>
    if c = '{' then
      match takeToLast '}' rest with
      | some t => some ('{' :: t)
      | none => findJsonSubstring rest
    else if c = '[' then
      match takeToLast ']' rest with
      | some t => some ('[' :: t)
      | none => findJsonSubstring rest
    else findJsonSubstring rest

/-- `clean_llm_json` (llm_response_handling.py lines 4-47), string-input
branch: falsy (empty) input yields `None`; otherwise strip markdown fences,
strip whitespace, try `json.loads`; on decode failure search the original
text for a brace- or bracket-delimited substring and try `json.loads` on it;
any remaining failure yields `None`. -/
def cleanLlmJson (response : String) : Option JsonValue :=
  if response = "" then none
  else
    let text := response.data
    let cleaned := pyStrip (pySubFences text)
    match jsonLoads cleaned with
    | some v => some v
    | none =>
      match findJsonSubstring text with
      | some cand => jsonLoads cand
      | none => none

theorem pySubFencesAux_nil : ∀ f : Nat, pySubFencesAux f [] = [] := by
  intro f
  cases f <;> rfl

theorem hasFence_cons {c : Char} {cs : List Char} (h : hasFence (c :: cs) = false) :
    startsFence (c :: cs) = false ∧ hasFence cs = false := by
  simpa [hasFence, Bool.or_eq_false_iff] using h

theorem matchFenceAt_none {l : List Char} (h : startsFence l = false) :
    matchFenceAt l = none := by
  simp [matchFenceAt, h]

theorem pySubFencesAux_no_fence :
    ∀ (f : Nat) (l : List Char), hasFence l = false → pySubFencesAux f l = l := by
  intro f
  induction f with
  | zero => intro l _; rfl
  | succ n ih =>
    intro l h
    cases l with
    | nil => rfl
    | cons c cs =>
      obtain ⟨h1, h2⟩ := hasFence_cons h
      simp [pySubFencesAux, matchFenceAt_none h1, ih cs h2]

theorem pySubFences_no_fence {l : List Char} (h : hasFence l = false) :
    pySubFences l = l :=
  pySubFencesAux_no_fence l.length l h

theorem hasFence_dropWhile (p : Char → Bool) :
    ∀ l : List Char, hasFence l = false → hasFence (l.dropWhile p) = false := by
  intro l
  induction l with
  | nil => intro h; simpa using h
  | cons c cs ih =>
    intro h
    obtain ⟨h1, h2⟩ := hasFence_cons h
    by_cases hp : p c
    · simpa [List.dropWhile_cons, hp] using ih h2
    · simpa [List.dropWhile_cons, hp] using h

theorem dropWhile_append_ne (p : Char → Bool) :
    ∀ l r : List Char, l.dropWhile p ≠ [] →
      (l ++ r).dropWhile p = l.dropWhile p ++ r := by
  intro l r
  induction l with
  | nil => intro h; exact absurd rfl h
  | cons c cs ih =>
    intro h
    by_cases hp : p c
    · have h2 : cs.dropWhile p ≠ [] := by simpa [List.dropWhile_cons, hp] using h
      simpa [List.dropWhile_cons, hp] using ih h2
    · simp [List.dropWhile_cons, hp]

theorem dropWhile_idem (p : Char → Bool) (l : List Char) :
    (l.dropWhile p).dropWhile p = l.dropWhile p := by
  induction l with
  | nil => rfl
  | cons c cs ih =>
    by_cases hp : p c
    · simpa [List.dropWhile_cons, hp] using ih
    · simp [List.dropWhile_cons, hp]

theorem pyStrip_dropWhile (l : List Char) :
    pyStrip (l.dropWhile pyIsSpace) = pyStrip l := by
  simp [pyStrip, dropWhile_idem]

theorem startsFence_cons_append_false {c : Char} {cs : List Char} (sfx : List Char)
    (hsfx : sfx.head? ≠ some backtick)
    (h1 : startsFence (c :: cs) = false) :
    startsFence (c :: (cs ++ sfx)) = false := by
  cases cs with
  | nil =>
    cases sfx with
    | nil => simpa using h1
    | cons s ss =>
      have hs : (s == backtick) = false := by
        rcases hsfx2 : s == backtick with _ | _
        · rfl
        · exact absurd (by simp [beq_iff_eq.mp hsfx2]) hsfx
      cases ss with
      | nil => rfl
      | cons t ts => simp [startsFence, hs]
  | cons d ds =>
    cases ds with
    | nil =>
      cases sfx with
      | nil => simpa using h1
      | cons s ss =>
        have hs : (s == backtick) = false := by
          rcases hsfx2 : s == backtick with _ | _
          · rfl
          · exact absurd (by simp [beq_iff_eq.mp hsfx2]) hsfx
        simp [startsFence, hs]
    | cons e es =>
      simpa [startsFence] using h1

theorem splitAtFence_ws_fence :
    ∀ l : List Char, hasFence l = false →
      splitAtFence (l ++ '\n' :: backtick :: backtick :: backtick :: []) =
        some (l ++ ['\n'], []) := by
  intro l
  induction l with
  | nil => intro _; rfl
  | cons c cs ih =>
    intro h
    obtain ⟨h1, h2⟩ := hasFence_cons h
    have hsf : startsFence (c :: (cs ++ '\n' :: backtick :: backtick :: backtick :: [])) = false := by
      apply startsFence_cons_append_false _ ?_ h1
      cases cs <;> simp <;> decide
    simp [List.cons_append, splitAtFence, hsf, ih h2]

theorem pySubFences_of_matchFence {l g : List Char}
    (hcons : l ≠ []) (hm : matchFenceAt l = some (g, [])) :
    pySubFences l = g := by
  cases l with
  | nil => exact absurd rfl hcons
  | cons c cs =>
    simp [pySubFences, pySubFencesAux, hm, pySubFencesAux_nil]

theorem matchFenceAt_wrapTagged (jd : List Char) (h : hasFence jd = false)
    (hne : jd.dropWhile pyIsSpace ≠ []) :
    matchFenceAt ("```json\n".data ++ (jd ++ "\n```".data)) =
      some (jd.dropWhile pyIsSpace, []) := by
  show (match splitAtFence
      ((jd ++ '\n' :: backtick :: backtick :: backtick :: []).dropWhile pyIsSpace) with
    | some (before, after) =>
      if before.getLast? = some '\n' then some (before.dropLast, after)
      else some (before, after)
    | none => none) = some (jd.dropWhile pyIsSpace, [])
  rw [dropWhile_append_ne pyIsSpace jd _ hne,
    splitAtFence_ws_fence (jd.dropWhile pyIsSpace) (hasFence_dropWhile pyIsSpace jd h)]
  simp

theorem matchFenceAt_wrapPlain (jd : List Char) (h : hasFence jd = false)
    (hne : jd.dropWhile pyIsSpace ≠ []) :
    matchFenceAt ("```\n".data ++ (jd ++ "\n```".data)) =
      some (jd.dropWhile pyIsSpace, []) := by
  show (match splitAtFence
      ((jd ++ '\n' :: backtick :: backtick :: backtick :: []).dropWhile pyIsSpace) with
    | some (before, after) =>
      if before.getLast? = some '\n' then some (before.dropLast, after)
      else some (before, after)
    | none => none) = some (jd.dropWhile pyIsSpace, [])
  rw [dropWhile_append_ne pyIsSpace jd _ hne,
    splitAtFence_ws_fence (jd.dropWhile pyIsSpace) (hasFence_dropWhile pyIsSpace jd h)]
  simp

theorem jsonLoads_nil : jsonLoads [] = none := rfl

theorem string_ne_empty_of_data_cons {s : String} {c : Char} {cs : List Char}
    (h : s.data = c :: cs) : s ≠ "" := by
  intro hcon
  rw [hcon] at h
  exact absurd h (by simp [String.data])

theorem dropWhile_ne_nil_of_loads {jd : List Char} {v : JsonValue}
    (hload : jsonLoads (pyStrip jd) = some v) :
    jd.dropWhile pyIsSpace ≠ [] := by
  intro hcon
  rw [show pyStrip jd = [] from by simp [pyStrip, hcon], jsonLoads_nil] at hload
  exact Option.noConfusion hload

/-- C9 counterexample: the input is a valid JSON array (of two strings each
equal to three backticks) wrapped in a well-formed markdown fence, but
`clean_llm_json` returns the array of two empty strings — not the value
obtained by parsing that JSON: the inner backtick runs close and reopen the
fence pattern, so the `re.sub` deletes parts of the payload. -/
theorem c9_counterexample :
    jsonLoads (pyStrip "[\"```\", \"```\"]".data) =
      some (JsonValue.arr [JsonValue.str "```", JsonValue.str "```"]) ∧
    cleanLlmJson ("```json\n" ++ "[\"```\", \"```\"]" ++ "\n```") =
      some (JsonValue.arr [JsonValue.str "", JsonValue.str ""]) ∧
    JsonValue.arr [JsonValue.str "", JsonValue.str ""] ≠
      JsonValue.arr [JsonValue.str "```", JsonValue.str "```"] := by
  refine ⟨rfl, rfl, ?_⟩
  intro hcon
  injection hcon with h1
  injection h1 with h2 h3
  injection h2 with h4
  exact absurd h4 (by decide)

/-- C9 (amended): for every string `j` that contains no three-backtick run
and whose whitespace-stripped form parses as JSON, `clean_llm_json` returns
exactly that parsed value, both for `j` wrapped in a markdown code fence
(````json` or plain ```` ``` ````, payload on its own lines) and for the
plain string `j` itself. -/
theorem c9_extract_fenced_json (j : String) (v : JsonValue)
    (hfence : hasFence j.data = false)
    (hload : jsonLoads (pyStrip j.data) = some v) :
    cleanLlmJson ("```json\n" ++ j ++ "\n```") = some v ∧
    cleanLlmJson ("```\n" ++ j ++ "\n```") = some v ∧
    cleanLlmJson j = some v := by
  have hne := dropWhile_ne_nil_of_loads hload
  have hdataT : ("```json\n" ++ j ++ "\n```").data =
      "```json\n".data ++ (j.data ++ "\n```".data) := by
    simp [String.data_append]
  have hdataP : ("```\n" ++ j ++ "\n```").data =
      "```\n".data ++ (j.data ++ "\n```".data) := by
    simp [String.data_append]
  refine ⟨?_, ?_, ?_⟩
  · have hneT : ("```json\n" ++ j ++ "\n```") ≠ "" := by
      have hd2 : ("```json\n" ++ j ++ "\n```").data =
          backtick :: ("``json\n".data ++ (j.data ++ "\n```".data)) := by
        rw [hdataT]
        rfl
      exact string_ne_empty_of_data_cons hd2
    have hsub : pySubFences (("```json\n" ++ j ++ "\n```").data) =
        j.data.dropWhile pyIsSpace := by
      rw [hdataT]
      exact pySubFences_of_matchFence (by simp)
        (matchFenceAt_wrapTagged j.data hfence hne)
    unfold cleanLlmJson
    rw [if_neg hneT]
    simp only [hsub, pyStrip_dropWhile, hload]
  · have hneP : ("```\n" ++ j ++ "\n```") ≠ "" := by
      have hd2 : ("```\n" ++ j ++ "\n```").data =
          backtick :: ("``\n".data ++ (j.data ++ "\n```".data)) := by
        rw [hdataP]
        rfl
      exact string_ne_empty_of_data_cons hd2
    have hsub : pySubFences (("```\n" ++ j ++ "\n```").data) =
        j.data.dropWhile pyIsSpace := by
      rw [hdataP]
      exact pySubFences_of_matchFence (by simp)
        (matchFenceAt_wrapPlain j.data hfence hne)
    unfold cleanLlmJson
    rw [if_neg hneP]
    simp only [hsub, pyStrip_dropWhile, hload]
  · have hneJ : j ≠ "" := by
      intro hcon
      rw [hcon] at hload
      rw [show pyStrip "".data = [] from rfl, jsonLoads_nil] at hload
      exact Option.noConfusion hload
    unfold cleanLlmJson
    rw [if_neg hneJ]
    simp only [pySubFences_no_fence hfence, hload]

/-- Witness for C9 (amended): a small fenced JSON array in all three forms. -/
theorem c9_extract_fenced_json_witness :
    cleanLlmJson ("```json\n" ++ "[1, 2]" ++ "\n```") =
        some (JsonValue.arr [JsonValue.num "1", JsonValue.num "2"]) ∧
    cleanLlmJson ("```\n" ++ "[1, 2]" ++ "\n```") =
        some (JsonValue.arr [JsonValue.num "1", JsonValue.num "2"]) ∧
    cleanLlmJson "[1, 2]" =
        some (JsonValue.arr [JsonValue.num "1", JsonValue.num "2"]) :=
  c9_extract_fenced_json "[1, 2]"
    (JsonValue.arr [JsonValue.num "1", JsonValue.num "2"]) rfl rfl

/-- C10: for every input string, `clean_llm_json` terminates and returns
either a parsed JSON value or None and never raises; the empty (falsy) input
returns None immediately; a decode failure on the fence-stripped text falls
back to searching the original text for a brace- or bracket-delimited
substring, and a decode failure there — or no such substring — yields None. -/
theorem c10_clean_llm_json_total (s : String) :
    (s = "" → cleanLlmJson s = none) ∧
    (cleanLlmJson s = none ∨ ∃ v : JsonValue, cleanLlmJson s = some v) ∧
    (s ≠ "" → jsonLoads (pyStrip (pySubFences s.data)) = none →
      cleanLlmJson s = (findJsonSubstring s.data).bind jsonLoads) := by
  refine ⟨?_, ?_, ?_⟩
  · intro h
    simp [cleanLlmJson, h]
  · cases h : cleanLlmJson s with
    | none => exact Or.inl rfl
    | some v => exact Or.inr ⟨v, rfl⟩
  · intro hne hload
    unfold cleanLlmJson
    rw [if_neg hne]
    simp only [hload]
    cases hf : findJsonSubstring s.data <;> simp [hf]

/-- Witness for C10: a fence-free, JSON-free input reaches the fallback
search and yields None. -/
theorem c10_clean_llm_json_total_witness :
    cleanLlmJson "hello" = (findJsonSubstring "hello".data).bind jsonLoads :=
  (c10_clean_llm_json_total "hello").2.2 (by decide) rfl
